import Mathlib

/-!
Verification of the CLIPPER data-association core against its specification.

The repository's surface under scrutiny is the Python binding
`src/bindings/python/py_clipper.cpp`; the core library it binds
(`clipper::findDenseCluster`, `clipper::scorePairwiseConsistency`,
`clipper::scoreSparsePairwiseConsistency`, `clipper::createAllToAll`) is not
part of the source tree, so those components are modelled from the
specification text, with exact rational arithmetic in place of IEEE doubles.
Binding-level facts (argument conversion policies, field access modes, the
parallelization decision) are embedded directly from `py_clipper.cpp`.
-/

namespace Clipper

/-- A membership/weight vector over `n` candidate associations. -/
abbrev Vec (n : ℕ) := Fin n → ℚ

/-- A square matrix over `n` candidate associations. -/
abbrev Mat (n : ℕ) := Fin n → Fin n → ℚ

/-- Dot product of two vectors. -/
def dot {n : ℕ} (u v : Vec n) : ℚ := ∑ i, u i * v i

/-- Matrix-vector product. -/
def mulVec {n : ℕ} (M : Mat n) (u : Vec n) : Vec n := fun i => ∑ j, M i j * u j

/-- The solver objective `uᵀMu`. -/
def obj {n : ℕ} (M : Mat n) (u : Vec n) : ℚ := dot u (mulVec M u)

/-- Modelled from the spec: the solver parameter record (`clipper::Params`,
declared but not defined under `src/`): convergence tolerances `tol_u`,
`tol_F`, `tol_Fop`; iteration caps `maxiniters`, `maxoliters`, `maxlsiters`;
annealing growth factor `beta`; numerical floor `eps`. -/
structure Params where
  tol_u : ℚ
  tol_F : ℚ
  tol_Fop : ℚ
  maxiniters : ℕ
  maxoliters : ℕ
  beta : ℚ
  maxlsiters : ℕ
  eps : ℚ

/-- Modelled from the spec: the solver output record (`clipper::Solution`,
declared but not defined under `src/`): outer-iteration count `t`, saturation
index `ifinal`, thresholded node set `nodes`, membership vector `u`, and the
achieved objective `score`. -/
structure Solution (n : ℕ) where
  t : ℕ
  ifinal : ℕ
  nodes : List (Fin n)
  u : Vec n
  score : ℚ

/-- Modelled from the spec: the graph operator used inside the solver —
"M plus a penalty term enforcing C, scaled by the current annealing weight"
`d`: entries not permitted by the binary constraint matrix `C` are penalized
proportionally to `d`. -/
def Mpen {n : ℕ} (M C : Mat n) (d : ℚ) : Mat n :=
  fun i j => M i j - d * (1 - C i j)

/-- Modelled from the spec: one gradient step of size `α` along the penalized
graph operator, clamped back onto the non-negative orthant (the projection
part of "project the result back onto the non-negative simplex"). -/
def clampStep {n : ℕ} (M C : Mat n) (d : ℚ) (u : Vec n) (α : ℚ) : Vec n :=
  fun i => max (u i + α * mulVec (Mpen M C d) u i) 0

/-- Modelled from the spec: the projected, renormalized candidate update. The
division is guarded by the numerical floor `eps` ("`eps` guards all divisions
(e.g., normalization) against near-zero denominators"): when the clamped mass
is at or below `eps` the previous iterate is kept. -/
def tryStep {n : ℕ} (M C : Mat n) (d eps : ℚ) (u : Vec n) (α : ℚ) : Vec n :=
  if (∑ i, clampStep M C d u α i) ≤ eps then u
  else fun i => clampStep M C d u α i / ∑ j, clampStep M C d u α j

/-- Modelled from the spec: the bounded line search ("up to `maxlsiters`
steps, halving step size") that guarantees monotonic non-decrease of the
objective: the candidate at the current step size is accepted only when it
does not decrease `uᵀMu`, otherwise the step size is halved; if the budget is
exhausted the iterate is left unchanged. -/
def lsearch {n : ℕ} (M C : Mat n) (d eps : ℚ) (u : Vec n) : ℕ → ℚ → Vec n
  | 0, _ => u
  | k + 1, α =>
      if obj M u ≤ obj M (tryStep M C d eps u α) then tryStep M C d eps u α
      else lsearch M C d eps u k (α / 2)

/-- Modelled from the spec: a single inner update — line-searched projected
gradient step at the current annealing weight `d`. -/
def innerStep {n : ℕ} (M C : Mat n) (d : ℚ) (p : Params) (u : Vec n) : Vec n :=
  lsearch M C d p.eps u p.maxlsiters 1

/-- 1-norm distance between iterates, used for the `tol_u` stopping test. -/
def dist1 {n : ℕ} (u v : Vec n) : ℚ := ∑ i, |u i - v i|

/-- Modelled from the spec: the inner fixed-point loop, bounded by
`maxiniters`, stopping early once the change in `u` is below `tol_u` or the
change in the objective `uᵀMu` is below `tol_F`. -/
def innerLoop {n : ℕ} (M C : Mat n) (d : ℚ) (p : Params) : ℕ → Vec n → Vec n
  | 0, u => u
  | k + 1, u =>
      if dist1 (innerStep M C d p u) u ≤ p.tol_u ∨
         |obj M (innerStep M C d p u) - obj M u| ≤ p.tol_F then innerStep M C d p u
      else innerLoop M C d p k (innerStep M C d p u)

/-- The penalized objective, whose change across outer iterations drives the
`tol_Fop` termination test. -/
def objPen {n : ℕ} (M C : Mat n) (d : ℚ) (u : Vec n) : ℚ :=
  dot u (mulVec (Mpen M C d) u)

/-- Modelled from the spec: the outer annealing loop, bounded by `maxoliters`.
Each outer iteration runs the inner loop to convergence at the current
annealing weight `d`, then grows `d` by the factor `beta`; it terminates early
when the change in the penalized objective falls below `tol_Fop`. The result
is the chronological list of iterates at the end of each executed outer
iteration. -/
def outerTrace {n : ℕ} (M C : Mat n) (p : Params) : ℕ → ℚ → Vec n → List (Vec n)
  | 0, _, _ => []
  | k + 1, d, u =>
      if |objPen M C d (innerLoop M C d p p.maxiniters u) - objPen M C d u| ≤ p.tol_Fop then
        [innerLoop M C d p p.maxiniters u]
      else
        innerLoop M C d p p.maxiniters u ::
          outerTrace M C p k (d * p.beta) (innerLoop M C d p p.maxiniters u)

/-- The uniform initial vector (`1/n` in every coordinate), the cold-start
initialization of the solver. -/
def uniform (n : ℕ) : Vec n := fun _ => 1 / (n : ℚ)

/-- Modelled from the spec: the warm-started overload
`findDenseCluster(M, C, u0, params)` of the dense cluster solver
(`clipper::findDenseCluster`, not under `src/`): runs the annealed
projected-gradient scheme from `u0` and emits a `Solution` with the final
iterate, the executed outer-iteration count, the saturation index, the
thresholded node set and the achieved objective. -/
def findDenseClusterU0 {n : ℕ} (M C : Mat n) (u0 : Vec n) (p : Params) : Solution n :=
  { t := (outerTrace M C p p.maxoliters 1 u0).length
    ifinal := (outerTrace M C p p.maxoliters 1 u0).length
    nodes := (List.finRange n).filter
      (fun i => 0 < ((outerTrace M C p p.maxoliters 1 u0).getLastD u0) i)
    u := (outerTrace M C p p.maxoliters 1 u0).getLastD u0
    score := obj M ((outerTrace M C p p.maxoliters 1 u0).getLastD u0) }

/-- Modelled from the spec: the cold-start overload
`findDenseCluster(M, C, params)`: initializes `u` to the uniform vector. -/
def findDenseCluster {n : ℕ} (M C : Mat n) (p : Params) : Solution n :=
  findDenseClusterU0 M C (uniform n) p

/-- Membership in the probability simplex: non-negative entries summing to 1. -/
def inSimplex {n : ℕ} (u : Vec n) : Prop :=
  (∀ i, 0 ≤ u i) ∧ ∑ i, u i = 1

/-- Modelled from the spec: the dense graph builder
`clipper::scorePairwiseConsistency` (not under `src/`). The invariant,
together with the observation data `D1`, `D2` it closes over, is abstracted as
a scoring function `f` on pairs of candidate associations; `A` is the
association list. For every unordered pair `(k, l)`, `k ≠ l`, the invariant is
evaluated once on `(A k, A l)` and the result stored symmetrically at both
`(k, l)` and `(l, k)`; the diagonal is fixed at 1. -/
def scorePairwiseConsistency {m : ℕ} (f : ℕ × ℕ → ℕ × ℕ → ℚ)
    (A : Fin m → ℕ × ℕ) : Mat m :=
  fun k l => if k = l then 1 else if k < l then f (A k) (A l) else f (A l) (A k)

/-- Modelled from the spec: the sparse graph builder
`clipper::scoreSparsePairwiseConsistency` (not under `src/`): "identical
semantics but skips/zeros explicit storage for pairs scoring exactly 0". An
absent (unstored) entry is `none`. -/
def scoreSparsePairwiseConsistency {m : ℕ} (f : ℕ × ℕ → ℕ × ℕ → ℚ)
    (A : Fin m → ℕ × ℕ) : Fin m → Fin m → Option ℚ :=
  fun k l => if scorePairwiseConsistency f A k l = 0 then none
             else some (scorePairwiseConsistency f A k l)

/-- The numeric value the sparse representation holds at `(k, l)`, with
unstored entries reading as 0. -/
def sparseValue {m : ℕ} (f : ℕ × ℕ → ℕ × ℕ → ℚ) (A : Fin m → ℕ × ℕ)
    (k l : Fin m) : ℚ :=
  (scoreSparsePairwiseConsistency f A k l).getD 0

/-- The nonzero support of the dense affinity matrix. -/
def denseSupport {m : ℕ} (f : ℕ × ℕ → ℕ × ℕ → ℚ) (A : Fin m → ℕ × ℕ)
    (k l : Fin m) : Prop :=
  scorePairwiseConsistency f A k l ≠ 0

/-- The nonzero support of the sparse affinity matrix. -/
def sparseSupport {m : ℕ} (f : ℕ × ℕ → ℕ × ℕ → ℚ) (A : Fin m → ℕ × ℕ)
    (k l : Fin m) : Prop :=
  sparseValue f A k l ≠ 0

/-- The row-major Cartesian-product pairing of `[0,n1) × [0,n2)`,
`i` outer, `j` inner. -/
def allToAllPairs (n1 n2 : ℕ) : List (ℕ × ℕ) :=
  (List.range n1).flatMap fun i => (List.range n2).map fun j => (i, j)

/-- Modelled from the spec: the candidate generator `clipper::createAllToAll`
(not under `src/`): returns the row-major all-to-all association list, and
"fails with an invalid-argument condition if n1 or n2 is non-positive",
raised at the call boundary with no partial result. -/
def createAllToAll (n1 n2 : ℤ) : Except String (List (ℕ × ℕ)) :=
  if n1 ≤ 0 ∨ n2 ≤ 0 then
    Except.error "createAllToAll: n1 and n2 must be positive"
  else
    Except.ok (allToAllPairs n1.toNat n2.toNat)

/-!
Binding-level embeddings, taken directly from
`src/bindings/python/py_clipper.cpp`.
-/

/-- A `clipper::invariants::PairwiseInvariantPtr` as the binding layer sees
it: the one observable used by `py_clipper.cpp` is whether
`std::dynamic_pointer_cast<PyPairwiseInvariant<>>` on it succeeds, i.e.
whether it is a Python-derived instance of the `PyPairwiseInvariant`
trampoline. -/
structure PairwiseInvariantPtr where
  isPyPairwiseInvariant : Bool

/-- The parallelization decision of the `score_pairwise_consistency` binding
(`py_clipper.cpp` line 136):
`bool parallelize = (std::dynamic_pointer_cast<PyPairwiseInvariant<>>(invariant)) ? false : true;`. -/
def score_pairwise_consistency_parallel (invariant : PairwiseInvariantPtr) : Bool :=
  if invariant.isPyPairwiseInvariant then false else true

/-- The parallelization decision of the `score_sparse_pairwise_consistency`
binding (`py_clipper.cpp` lines 154-157), identical to the dense one. -/
def score_sparse_pairwise_consistency_parallel (invariant : PairwiseInvariantPtr) : Bool :=
  if invariant.isPyPairwiseInvariant then false else true

/-- Names of the arguments appearing in the bindings of the public entry
points of `py_clipper.cpp`. -/
inductive ArgName where
  | invariant
  | D1
  | D2
  | A
  | M
  | C
  | u0
  | params
deriving DecidableEq

/-- Conversion policy of a bound argument: `noconvertArg` when the binding
marks it `.noconvert()` (mismatched numeric types are rejected),
`convertArg` when pybind11's default implicit conversion is allowed. -/
inductive ArgPolicy where
  | noconvertArg
  | convertArg
deriving DecidableEq

/-- Argument list of the `score_pairwise_consistency` binding
(`py_clipper.cpp` line 141): `"invariant"_a, "D1"_a.noconvert(),
"D2"_a.noconvert(), "A"_a`. -/
def score_pairwise_consistency_args : List (ArgName × ArgPolicy) :=
  [(ArgName.invariant, ArgPolicy.convertArg),
   (ArgName.D1, ArgPolicy.noconvertArg),
   (ArgName.D2, ArgPolicy.noconvertArg),
   (ArgName.A, ArgPolicy.convertArg)]

/-- Argument list of the `score_sparse_pairwise_consistency` binding
(`py_clipper.cpp` lines 163-164): `"invariant"_a, "D1"_a.noconvert(),
"D2"_a.noconvert(), "A"_a`. -/
def score_sparse_pairwise_consistency_args : List (ArgName × ArgPolicy) :=
  [(ArgName.invariant, ArgPolicy.convertArg),
   (ArgName.D1, ArgPolicy.noconvertArg),
   (ArgName.D2, ArgPolicy.noconvertArg),
   (ArgName.A, ArgPolicy.convertArg)]

/-- Argument list of the cold-start `find_dense_cluster` binding
(`py_clipper.cpp` line 172): `"M"_a.noconvert(), "C"_a.noconvert(),
"params"_a`. -/
def find_dense_cluster_args : List (ArgName × ArgPolicy) :=
  [(ArgName.M, ArgPolicy.noconvertArg),
   (ArgName.C, ArgPolicy.noconvertArg),
   (ArgName.params, ArgPolicy.convertArg)]

/-- Argument list of the warm-started `find_dense_cluster` binding
(`py_clipper.cpp` line 177): `"M"_a.noconvert(), "C"_a.noconvert(), "u0"_a,
"params"_a` — note that `u0` carries no `.noconvert()`. -/
def find_dense_cluster_u0_args : List (ArgName × ArgPolicy) :=
  [(ArgName.M, ArgPolicy.noconvertArg),
   (ArgName.C, ArgPolicy.noconvertArg),
   (ArgName.u0, ArgPolicy.convertArg),
   (ArgName.params, ArgPolicy.convertArg)]

/-- The matrix/vector argument names the spec's no-coercion sentence covers:
`D1`, `D2` for the graph builders; `M`, `C`, `u0` for `find_dense_cluster`. -/
def matrixVectorArgNames : List ArgName :=
  [ArgName.D1, ArgName.D2, ArgName.M, ArgName.C, ArgName.u0]

/-- The claim that every matrix/vector argument of the public entry points is
bound with `.noconvert()`. -/
def noconvertClaim : Prop :=
  ∀ x ∈ score_pairwise_consistency_args ++ score_sparse_pairwise_consistency_args
        ++ find_dense_cluster_args ++ find_dense_cluster_u0_args,
    x.1 ∈ matrixVectorArgNames → x.2 = ArgPolicy.noconvertArg

instance : Decidable noconvertClaim := by
  unfold noconvertClaim; infer_instance

/-- Access mode under which a binding exposes a field: `def_readwrite` gives
`readwriteAccess`, `def_readonly` would give `readonlyAccess`. -/
inductive FieldAccess where
  | readwriteAccess
  | readonlyAccess
deriving DecidableEq

/-- Fields of `clipper::Solution` exposed by the binding. -/
inductive SolutionField where
  | t
  | ifinal
  | nodes
  | u
  | score
deriving DecidableEq

/-- The `Solution` field bindings of `py_clipper.cpp` lines 117-121: every
field is exposed with `.def_readwrite`. -/
def solution_field_bindings : List (SolutionField × FieldAccess) :=
  [(SolutionField.t, FieldAccess.readwriteAccess),
   (SolutionField.ifinal, FieldAccess.readwriteAccess),
   (SolutionField.nodes, FieldAccess.readwriteAccess),
   (SolutionField.u, FieldAccess.readwriteAccess),
   (SolutionField.score, FieldAccess.readwriteAccess)]

/-- The claim that no operation of the public interface can change a
`Solution`'s fields, i.e. that every exposed field binding is read-only. -/
def solutionImmutableClaim : Prop :=
  ∀ x ∈ solution_field_bindings, x.2 = FieldAccess.readonlyAccess

instance : Decidable solutionImmutableClaim := by
  unfold solutionImmutableClaim; infer_instance

/-- Conversion policy the binding assigns to the argument named `a`, when
that entry point has such an argument. -/
def policyOf (table : List (ArgName × ArgPolicy)) (a : ArgName) : Option ArgPolicy :=
  (table.find? (fun x => x.1 == a)).map Prod.snd

/-!
Concrete test data used by the witness theorems.
-/

/-- A concrete 2×2 affinity/constraint matrix. -/
def Mw : Mat 2 := fun _ _ => 1

/-- A concrete parameter record. -/
def pw : Params :=
  { tol_u := 1 / 100000000
    tol_F := 1 / 1000000000
    tol_Fop := 1 / 10000000000
    maxiniters := 5
    maxoliters := 3
    beta := 2
    maxlsiters := 4
    eps := 1 / 1000000000 }

/-- A concrete warm-start vector on the 2-simplex. -/
def u0w : Vec 2 := fun _ => 1 / 2

/-- A concrete invariant scoring function. -/
def f0 : ℕ × ℕ → ℕ × ℕ → ℚ := fun _ _ => 1 / 2

/-- A concrete association list of length 2. -/
def A0 : Fin 2 → ℕ × ℕ := fun i => (i.val, 0)

/-!
Helper lemmas.
-/

/-- Each coordinate of a clamped step is non-negative. -/
theorem clampStep_nonneg {n : ℕ} (M C : Mat n) (d : ℚ) (u : Vec n) (α : ℚ)
    (i : Fin n) : 0 ≤ clampStep M C d u α i := by
  unfold clampStep
  exact le_max_right _ _

/-- The guarded projected update preserves the simplex. -/
theorem tryStep_inSimplex {n : ℕ} (M C : Mat n) (d eps : ℚ) (heps : 0 ≤ eps)
    (u : Vec n) (hu : inSimplex u) (α : ℚ) :
    inSimplex (tryStep M C d eps u α) := by
  unfold tryStep
  split
  · exact hu
  · rename_i h
    push_neg at h
    have hs : 0 < ∑ i, clampStep M C d u α i := lt_of_le_of_lt heps h
    constructor
    · intro i
      exact div_nonneg (clampStep_nonneg M C d u α i) hs.le
    · rw [← Finset.sum_div]
      exact div_self hs.ne'

/-- The line search preserves the simplex. -/
theorem lsearch_inSimplex {n : ℕ} (M C : Mat n) (d eps : ℚ) (heps : 0 ≤ eps)
    (u : Vec n) (hu : inSimplex u) :
    ∀ (k : ℕ) (α : ℚ), inSimplex (lsearch M C d eps u k α)
  | 0, _ => hu
  | k + 1, α => by
      unfold lsearch
      split
      · exact tryStep_inSimplex M C d eps heps u hu α
      · exact lsearch_inSimplex M C d eps heps u hu k (α / 2)

/-- The line search never decreases the objective `uᵀMu`. -/
theorem obj_le_lsearch {n : ℕ} (M C : Mat n) (d eps : ℚ) (u : Vec n) :
    ∀ (k : ℕ) (α : ℚ), obj M u ≤ obj M (lsearch M C d eps u k α)
  | 0, _ => le_refl _
  | k + 1, α => by
      unfold lsearch
      split
      · rename_i h
        exact h
      · exact obj_le_lsearch M C d eps u k (α / 2)

/-- A single inner update preserves the simplex. -/
theorem innerStep_inSimplex {n : ℕ} (M C : Mat n) (d : ℚ) (p : Params)
    (heps : 0 ≤ p.eps) (u : Vec n) (hu : inSimplex u) :
    inSimplex (innerStep M C d p u) :=
  lsearch_inSimplex M C d p.eps heps u hu p.maxlsiters 1

/-- A single inner update never decreases the objective. -/
theorem obj_le_innerStep {n : ℕ} (M C : Mat n) (d : ℚ) (p : Params)
    (u : Vec n) : obj M u ≤ obj M (innerStep M C d p u) :=
  obj_le_lsearch M C d p.eps u p.maxlsiters 1

/-- The inner loop preserves the simplex. -/
theorem innerLoop_inSimplex {n : ℕ} (M C : Mat n) (d : ℚ) (p : Params)
    (heps : 0 ≤ p.eps) :
    ∀ (k : ℕ) (u : Vec n), inSimplex u → inSimplex (innerLoop M C d p k u)
  | 0, _, hu => hu
  | k + 1, u, hu => by
      unfold innerLoop
      split
      · exact innerStep_inSimplex M C d p heps u hu
      · exact innerLoop_inSimplex M C d p heps k _ (innerStep_inSimplex M C d p heps u hu)

/-- The inner loop never decreases the objective. -/
theorem obj_le_innerLoop {n : ℕ} (M C : Mat n) (d : ℚ) (p : Params) :
    ∀ (k : ℕ) (u : Vec n), obj M u ≤ obj M (innerLoop M C d p k u)
  | 0, _ => le_refl _
  | k + 1, u => by
      unfold innerLoop
      split
      · exact obj_le_innerStep M C d p u
      · exact le_trans (obj_le_innerStep M C d p u)
          (obj_le_innerLoop M C d p k (innerStep M C d p u))

/-- Every iterate recorded by the outer loop lies on the simplex. -/
theorem outerTrace_inSimplex {n : ℕ} (M C : Mat n) (p : Params)
    (heps : 0 ≤ p.eps) :
    ∀ (k : ℕ) (d : ℚ) (u : Vec n), inSimplex u →
      ∀ v ∈ outerTrace M C p k d u, inSimplex v
  | 0, _, _, _ => by
      intro v hv
      simp [outerTrace] at hv
  | k + 1, d, u, hu => by
      intro v hv
      unfold outerTrace at hv
      split at hv
      · rw [List.mem_singleton] at hv
        subst hv
        exact innerLoop_inSimplex M C d p heps p.maxiniters u hu
      · rcases List.mem_cons.mp hv with h | h
        · subst h
          exact innerLoop_inSimplex M C d p heps p.maxiniters u hu
        · exact outerTrace_inSimplex M C p heps k (d * p.beta) _
            (innerLoop_inSimplex M C d p heps p.maxiniters u hu) v h

/-- Along the outer loop, the objective values form a non-decreasing chain
starting from the objective of the initial vector. -/
theorem outerTrace_chain {n : ℕ} (M C : Mat n) (p : Params) :
    ∀ (k : ℕ) (d : ℚ) (u : Vec n),
      List.Chain (· ≤ ·) (obj M u) ((outerTrace M C p k d u).map (obj M))
  | 0, _, _ => by
      simp [outerTrace]
  | k + 1, d, u => by
      unfold outerTrace
      split
      · simp only [List.map_cons, List.map_nil]
        exact List.Chain.cons (obj_le_innerLoop M C d p p.maxiniters u) List.Chain.nil
      · simp only [List.map_cons]
        exact List.Chain.cons (obj_le_innerLoop M C d p p.maxiniters u)
          (outerTrace_chain M C p k (d * p.beta) _)

/-- The sparse and dense nonzero supports coincide. -/
theorem sparseSupport_iff_denseSupport {m : ℕ} (f : ℕ × ℕ → ℕ × ℕ → ℚ)
    (A : Fin m → ℕ × ℕ) (k l : Fin m) :
    sparseSupport f A k l ↔ denseSupport f A k l := by
  unfold sparseSupport sparseValue scoreSparsePairwiseConsistency denseSupport
  split
  · rename_i h
    simp [h]
  · rename_i h
    simp [h]

/-- A property holding at the default and at every member of a list holds at
`getLastD`. -/
theorem getLastD_prop {α : Type} (P : α → Prop) :
    ∀ (l : List α) (b : α), P b → (∀ v ∈ l, P v) → P (l.getLastD b)
  | [], _, hb, _ => hb
  | a :: l, b, _, h => by
      rw [List.getLastD_cons]
      exact getLastD_prop P l a (h a (List.mem_cons_self a l))
        (fun v hv => h v (List.mem_cons_of_mem a hv))

/-- The uniform cold-start vector lies on the simplex when `n` is positive. -/
theorem uniform_inSimplex (n : ℕ) (hn : 0 < n) : inSimplex (uniform n) := by
  constructor
  · intro i
    unfold uniform
    positivity
  · unfold uniform
    rw [Finset.sum_const, Finset.card_univ, Fintype.card_fin, nsmul_eq_mul, mul_one_div]
    exact div_self (Nat.cast_ne_zero.mpr hn.ne')

/-- The row-major all-to-all list is the list of decoded linear indices. -/
theorem allToAllPairs_eq_map (n1 n2 : ℕ) (h2 : 0 < n2) :
    allToAllPairs n1 n2 =
      (List.range (n1 * n2)).map (fun k => (k / n2, k % n2)) := by
  induction n1 with
  | zero => simp [allToAllPairs]
  | succ n ih =>
      unfold allToAllPairs at ih ⊢
      rw [List.range_succ, List.flatMap_append, List.flatMap_singleton, ih,
        Nat.succ_mul, List.range_add, List.map_append, List.map_map]
      congr 1
      refine List.map_congr_left ?_
      intro j hj
      rw [List.mem_range] at hj
      have hdiv : (n * n2 + j) / n2 = n := by
        rw [Nat.add_comm, Nat.add_mul_div_right j n h2, Nat.div_eq_of_lt hj, Nat.zero_add]
      have hmod : (n * n2 + j) % n2 = j := by
        rw [Nat.mul_comm, Nat.mul_add_mod, Nat.mod_eq_of_lt hj]
      simp [Function.comp, hdiv, hmod]

/-!
Claim theorems.
-/

/-- Claim C1: for every valid dense affinity matrix `M`, constraint matrix `C`
and `Params`, `findDenseCluster` — in both the cold-start and the
warm-started `u0` overload — returns a `Solution` whose membership vector `u`
has only non-negative entries and sums to 1 (exactly, hence within `tol_u`):
a probability-simplex point. -/
theorem findDenseCluster_u_inSimplex {n : ℕ} (M C : Mat n) (u0 : Vec n)
    (p : Params) (hn : 0 < n) (heps : 0 ≤ p.eps) (hu0 : inSimplex u0) :
    inSimplex (findDenseCluster M C p).u ∧
    inSimplex (findDenseClusterU0 M C u0 p).u := by
  constructor
  · exact getLastD_prop inSimplex _ _ (uniform_inSimplex n hn)
      (outerTrace_inSimplex M C p heps p.maxoliters 1 (uniform n)
        (uniform_inSimplex n hn))
  · exact getLastD_prop inSimplex _ _ hu0
      (outerTrace_inSimplex M C p heps p.maxoliters 1 u0 hu0)

/-- Witness for C1 at a concrete 2-dimensional input. -/
theorem findDenseCluster_u_inSimplex_witness :
    inSimplex (findDenseCluster Mw Mw pw).u ∧
    inSimplex (findDenseClusterU0 Mw Mw u0w pw).u :=
  findDenseCluster_u_inSimplex Mw Mw u0w pw (by norm_num)
    (by norm_num [pw])
    ⟨fun i => by norm_num [u0w], by norm_num [u0w, Fin.sum_univ_two]⟩

/-- Claim C2: for every `(M, C, Params)` and initial vector, the sequence of
objective values `uᵀMu` at the end of each executed outer iteration of the
solver is non-decreasing (and never drops below the objective of the initial
vector), for the cold-start run and for any warm-started run. -/
theorem findDenseCluster_obj_monotone {n : ℕ} (M C : Mat n) (u0 : Vec n)
    (p : Params) :
    List.Chain (· ≤ ·) (obj M (uniform n))
      ((outerTrace M C p p.maxoliters 1 (uniform n)).map (obj M)) ∧
    List.Chain (· ≤ ·) (obj M u0)
      ((outerTrace M C p p.maxoliters 1 u0).map (obj M)) :=
  ⟨outerTrace_chain M C p p.maxoliters 1 (uniform n),
   outerTrace_chain M C p p.maxoliters 1 u0⟩

/-- Claim C3: for every invariant scoring function obeying the invariant
range contract and every association list, the affinity matrix produced by
`scorePairwiseConsistency` is symmetric, has every diagonal entry equal to 1,
and every entry lies in `[0, 1]`. -/
theorem scorePairwiseConsistency_props {m : ℕ} (f : ℕ × ℕ → ℕ × ℕ → ℚ)
    (A : Fin m → ℕ × ℕ) (hf : ∀ a b, 0 ≤ f a b ∧ f a b ≤ 1) :
    (∀ k l, scorePairwiseConsistency f A k l = scorePairwiseConsistency f A l k) ∧
    (∀ k, scorePairwiseConsistency f A k k = 1) ∧
    (∀ k l, 0 ≤ scorePairwiseConsistency f A k l ∧
      scorePairwiseConsistency f A k l ≤ 1) := by
  refine ⟨?_, ?_, ?_⟩
  · intro k l
    unfold scorePairwiseConsistency
    rcases lt_trichotomy k l with h | h | h
    · rw [if_neg (ne_of_lt h), if_pos h, if_neg (ne_of_gt h),
        if_neg (not_lt.mpr (le_of_lt h))]
    · subst h
      rw [if_pos rfl]
    · rw [if_neg (ne_of_gt h), if_neg (not_lt.mpr (le_of_lt h)),
        if_neg (ne_of_lt h), if_pos h]
  · intro k
    simp [scorePairwiseConsistency]
  · intro k l
    unfold scorePairwiseConsistency
    split_ifs with h1 h2
    · exact ⟨zero_le_one, le_refl 1⟩
    · exact hf (A k) (A l)
    · exact hf (A l) (A k)

/-- Witness for C3 at a concrete entry of a concrete 2-association graph. -/
theorem scorePairwiseConsistency_props_witness :
    0 ≤ scorePairwiseConsistency f0 A0 0 1 ∧
    scorePairwiseConsistency f0 A0 0 1 ≤ 1 :=
  (scorePairwiseConsistency_props f0 A0
    (fun a b => by norm_num [f0])).2.2 0 1

/-- Claim C4: for identical inputs, the dense and sparse affinity builders
are exactly equal on every index pair lying in the nonzero support of both
representations. -/
theorem sparse_dense_agree {m : ℕ} (f : ℕ × ℕ → ℕ × ℕ → ℚ)
    (A : Fin m → ℕ × ℕ) (k l : Fin m) (hd : denseSupport f A k l)
    (_hs : sparseSupport f A k l) :
    sparseValue f A k l = scorePairwiseConsistency f A k l := by
  unfold sparseValue scoreSparsePairwiseConsistency
  rw [if_neg hd]
  rfl

/-- Witness for C4 at the off-diagonal entry of a concrete 2-association
graph, where both representations carry the value 1/2. -/
theorem sparse_dense_agree_witness :
    sparseValue f0 A0 0 1 = scorePairwiseConsistency f0 A0 0 1 :=
  sparse_dense_agree f0 A0 0 1
    (show (1 : ℚ) / 2 ≠ 0 by norm_num)
    ((sparseSupport_iff_denseSupport f0 A0 0 1).mpr
      (show (1 : ℚ) / 2 ≠ 0 by norm_num))

/-- Claim C5: the solver is deterministic — two runs of the (warm-started or
cold-start) solver on identical `(M, C, u0, Params)` inputs return identical
`Solution`s; there is no randomized restart or other nondeterminism. -/
theorem findDenseCluster_deterministic {n : ℕ} (M1 C1 M2 C2 : Mat n)
    (u1 u2 : Vec n) (p1 p2 : Params) (hM : M1 = M2) (hC : C1 = C2)
    (hu : u1 = u2) (hp : p1 = p2) :
    findDenseClusterU0 M1 C1 u1 p1 = findDenseClusterU0 M2 C2 u2 p2 ∧
    findDenseCluster M1 C1 p1 = findDenseCluster M2 C2 p2 := by
  subst hM
  subst hC
  subst hu
  subst hp
  exact ⟨rfl, rfl⟩

/-- Witness for C5 at a concrete 2-dimensional input. -/
theorem findDenseCluster_deterministic_witness :
    findDenseClusterU0 Mw Mw u0w pw = findDenseClusterU0 Mw Mw u0w pw ∧
    findDenseCluster Mw Mw pw = findDenseCluster Mw Mw pw :=
  findDenseCluster_deterministic Mw Mw Mw Mw u0w u0w pw pw rfl rfl rfl rfl

/-- Claim C6: for all positive `n1`, `n2`, `createAllToAll n1 n2` returns the
Cartesian-product pairing of `[0,n1) × [0,n2)` in row-major order: the result
has length `n1 * n2`, contains no duplicate pairs, and the pair at position
`k` is `(k / n2, k % n2)`. -/
theorem createAllToAll_correct (n1 n2 : ℤ) (h1 : 0 < n1) (h2 : 0 < n2) :
    ∃ l, createAllToAll n1 n2 = Except.ok l ∧
      l.length = n1.toNat * n2.toNat ∧ l.Nodup ∧
      ∀ (k : ℕ) (hk : k < l.length),
        l.get ⟨k, hk⟩ = (k / n2.toNat, k % n2.toNat) := by
  have hn2 : 0 < n2.toNat := by omega
  refine ⟨(List.range (n1.toNat * n2.toNat)).map
    (fun k => (k / n2.toNat, k % n2.toNat)), ?_, ?_, ?_, ?_⟩
  · unfold createAllToAll
    rw [if_neg (by push_neg; exact ⟨h1, h2⟩)]
    exact congrArg Except.ok (allToAllPairs_eq_map n1.toNat n2.toNat hn2)
  · rw [List.length_map, List.length_range]
  · refine List.Nodup.map_on ?_ (List.nodup_range _)
    intro x hx y hy hxy
    have hfst : x / n2.toNat = y / n2.toNat := congrArg Prod.fst hxy
    have hsnd : x % n2.toNat = y % n2.toNat := congrArg Prod.snd hxy
    calc x = n2.toNat * (x / n2.toNat) + x % n2.toNat :=
            (Nat.div_add_mod x n2.toNat).symm
      _ = n2.toNat * (y / n2.toNat) + y % n2.toNat := by rw [hfst, hsnd]
      _ = y := Nat.div_add_mod y n2.toNat
  · intro k hk
    simp

/-- Witness for C6 at `n1 = 2`, `n2 = 3`. -/
theorem createAllToAll_correct_witness :
    ∃ l, createAllToAll 2 3 = Except.ok l ∧
      l.length = (2 : ℤ).toNat * (3 : ℤ).toNat ∧ l.Nodup ∧
      ∀ (k : ℕ) (hk : k < l.length),
        l.get ⟨k, hk⟩ = (k / (3 : ℤ).toNat, k % (3 : ℤ).toNat) :=
  createAllToAll_correct 2 3 (by norm_num) (by norm_num)

/-- Claim C7: `createAllToAll` fails with an invalid-argument error whenever
`n1 ≤ 0` or `n2 ≤ 0`, producing no partial result. -/
theorem createAllToAll_invalid (n1 n2 : ℤ) (h : n1 ≤ 0 ∨ n2 ≤ 0) :
    createAllToAll n1 n2 =
      Except.error "createAllToAll: n1 and n2 must be positive" := by
  unfold createAllToAll
  rw [if_pos h]

/-- Witness for C7 at `n1 = 0`, `n2 = 5`. -/
theorem createAllToAll_invalid_witness :
    createAllToAll 0 5 =
      Except.error "createAllToAll: n1 and n2 must be positive" :=
  createAllToAll_invalid 0 5 (Or.inl (le_refl 0))

/-- Claim C8: both Python entry points `score_pairwise_consistency` and
`score_sparse_pairwise_consistency` evaluate pairwise consistency strictly
serially (`parallelize = false`) exactly when the invariant is a
Python-derived instance of `PyPairwiseInvariant`; all other invariants are
evaluated with parallelization enabled. -/
theorem parallelize_iff_not_python (inv : PairwiseInvariantPtr) :
    (score_pairwise_consistency_parallel inv = false ↔
      inv.isPyPairwiseInvariant = true) ∧
    (score_sparse_pairwise_consistency_parallel inv = false ↔
      inv.isPyPairwiseInvariant = true) := by
  cases inv with
  | mk b =>
      cases b <;>
        simp [score_pairwise_consistency_parallel,
          score_sparse_pairwise_consistency_parallel]

/-- Claim C9 counterexample: the claim that every matrix/vector argument of
the public entry points is bound with `.noconvert()` is false — the
warm-start vector `u0` of `find_dense_cluster` carries no `.noconvert()` in
`py_clipper.cpp` line 177. -/
theorem noconvertClaim_false : ¬ noconvertClaim := by decide

/-- Claim C9 amended: `D1` and `D2` in both graph-builder entry points and
`M` and `C` in both `find_dense_cluster` overloads are bound with
`.noconvert()` (type mismatches rejected), but the warm-start vector `u0`
allows pybind11's default implicit conversion. -/
theorem bindings_noconvert :
    policyOf score_pairwise_consistency_args ArgName.D1
        = some ArgPolicy.noconvertArg ∧
    policyOf score_pairwise_consistency_args ArgName.D2
        = some ArgPolicy.noconvertArg ∧
    policyOf score_sparse_pairwise_consistency_args ArgName.D1
        = some ArgPolicy.noconvertArg ∧
    policyOf score_sparse_pairwise_consistency_args ArgName.D2
        = some ArgPolicy.noconvertArg ∧
    policyOf find_dense_cluster_args ArgName.M
        = some ArgPolicy.noconvertArg ∧
    policyOf find_dense_cluster_args ArgName.C
        = some ArgPolicy.noconvertArg ∧
    policyOf find_dense_cluster_u0_args ArgName.M
        = some ArgPolicy.noconvertArg ∧
    policyOf find_dense_cluster_u0_args ArgName.C
        = some ArgPolicy.noconvertArg ∧
    policyOf find_dense_cluster_u0_args ArgName.u0
        = some ArgPolicy.convertArg := by
  decide

/-- Claim C10 counterexample: the claim that no operation of the public
interface can change a returned `Solution`'s fields is false — every
`Solution` field is exposed with `.def_readwrite` in `py_clipper.cpp`
lines 117-121, so the bound attributes are mutable. -/
theorem solutionImmutableClaim_false : ¬ solutionImmutableClaim := by decide

/-- Claim C10 amended: a `Solution` is produced by each solver invocation,
but all of its fields (`t`, `ifinal`, `nodes`, `u`, `score`) are exposed as
mutable read-write attributes by the public interface. -/
theorem solution_fields_readwrite :
    solution_field_bindings.all
      (fun x => x.2 == FieldAccess.readwriteAccess) = true := by
  decide

end Clipper
